import Mathlib

/-!
# go-todo-postgres: a verification development of `main.go`

The HTTP handlers of `Desktop/go-todo-postgres/main.go` are embedded as pure
functions from a database state and a request to a result (the response, the
session the client holds afterwards, and the database state afterwards).

* The relational store behind `db.Query` / `db.QueryRow` / `db.Exec` is a pair of
  row lists together with the two id sequences.
* `bcrypt` is a parameter (`Bcrypt`): the handlers only use
  `GenerateFromPassword` and `CompareHashAndPassword`.
* `strconv.Atoi` is embedded from the Go standard library (`strconv/atoi.go`),
  including its fast path, its 64-bit clamping and its early exit on overflow.
* `log.Fatal` is the response `Response.Fatal`: the process exits, nothing is
  written to the client.
-/

namespace GoTodo

/-! ## Data model -/

/-- User structure (`type User struct` in main.go). -/
structure User where
  ID : Int
  Username : String
  Password : String
deriving DecidableEq, Repr

/-- Task structure (`type Task struct` in main.go). -/
structure Task where
  ID : Int
  Name : String
  Done : Bool
  UserID : Int
deriving DecidableEq, Repr

/-- Modelled from the spec: the table declaration of `users` is not part of the
sources; the persisted schema is `users(id, username unique, password_hash)`.
The column names are the ones the SQL statements of main.go use. -/
structure UserRow where
  id : Int
  username : String
  password : String
deriving DecidableEq, Repr

/-- Modelled from the spec: the table declaration of `tasks` is not part of the
sources; the persisted schema is `tasks(id, name, done, user_id)` with `done`
defaulting to false and `user_id` a foreign key to `users.id`. -/
structure TaskRow where
  id : Int
  name : String
  done : Bool
  user_id : Int
deriving DecidableEq, Repr

/-- Modelled from the spec: the database state behind the global `db` handle. The
schema (not part of the sources) gives every row a unique integer id; ids are
drawn from one sequence per table, as a serial column does. -/
structure DB where
  users : List UserRow
  tasks : List TaskRow
  users_id_seq : Int
  tasks_id_seq : Int
deriving DecidableEq, Repr

/-- The errors a statement can come back with. -/
inductive DBError where
  | DuplicateUsername
  | ForeignKeyViolation
deriving DecidableEq, Repr

/-- The constraints the schema maintains: primary keys, the unique username,
ids below the sequences, and the foreign key of `tasks.user_id`. -/
def DB.WF (db : DB) : Prop :=
  (db.users.map (·.id)).Nodup ∧
  (db.users.map (·.username)).Nodup ∧
  (db.tasks.map (·.id)).Nodup ∧
  (∀ u ∈ db.users, u.id < db.users_id_seq) ∧
  (∀ t ∈ db.tasks, t.id < db.tasks_id_seq) ∧
  (∀ t ∈ db.tasks, t.user_id ∈ db.users.map (·.id))

instance (db : DB) : Decidable db.WF := by
  unfold DB.WF; infer_instance

/-- The database right after the schema is created. -/
def DB.empty : DB := ⟨[], [], 1, 1⟩

/-! ## The SQL statements of main.go -/

/-- The rows of `SELECT id, name, done FROM tasks WHERE user_id = $1`. -/
def DB.selectTasks (db : DB) (userID : Int) : List TaskRow :=
  db.tasks.filter (fun t => t.user_id = userID)

/-- The call `db.Query` with that SELECT: the statement breaks no constraint of
the schema, so it comes back with its rows. -/
def DB.queryTasks (db : DB) (userID : Int) : Except DBError (List TaskRow) :=
  .ok (db.selectTasks userID)

/-- The row of `SELECT id, password FROM users WHERE username = $1`, as `QueryRow`
sees it: the first matching row, or none (`sql.ErrNoRows`). -/
def DB.selectUser (db : DB) (username : String) : Option UserRow :=
  db.users.find? (fun u => u.username = username)

/-- The statement `INSERT INTO users (username, password) VALUES ($1, $2)`. -/
def DB.insertUser (db : DB) (username password : String) : Except DBError DB :=
  if username ∈ db.users.map (·.username) then
    .error .DuplicateUsername
  else
    .ok { db with
      users := db.users ++ [⟨db.users_id_seq, username, password⟩]
      users_id_seq := db.users_id_seq + 1 }

/-- The statement `INSERT INTO tasks (name, user_id) VALUES ($1, $2)`. -/
def DB.insertTask (db : DB) (name : String) (userID : Int) : Except DBError DB :=
  if userID ∈ db.users.map (·.id) then
    .ok { db with
      tasks := db.tasks ++ [⟨db.tasks_id_seq, name, false, userID⟩]
      tasks_id_seq := db.tasks_id_seq + 1 }
  else
    .error .ForeignKeyViolation

/-- The statement `DELETE FROM tasks WHERE id = $1`. -/
def DB.deleteTask (db : DB) (taskID : Int) : DB :=
  { db with tasks := db.tasks.filter (fun t => t.id ≠ taskID) }

/-- The statement `UPDATE tasks SET done = true WHERE id = $1`. -/
def DB.updateDone (db : DB) (taskID : Int) : DB :=
  { db with tasks := db.tasks.map (fun t => if t.id = taskID then { t with done := true } else t) }

/-- The call `db.Exec` with that DELETE: the statement breaks no constraint of the
schema (no table refers to `tasks`), so it comes back without an error. -/
def DB.execDelete (db : DB) (taskID : Int) : Except DBError DB :=
  .ok (db.deleteTask taskID)

/-- The call `db.Exec` with that UPDATE: the statement breaks no constraint of the
schema, so it comes back without an error. -/
def DB.execUpdateDone (db : DB) (taskID : Int) : Except DBError DB :=
  .ok (db.updateDone taskID)

/-! ## strconv.Atoi -/

/-- The two errors of package strconv. -/
inductive NumError where
  | ErrSyntax
  | ErrRange
deriving DecidableEq, Repr

def maxUint64 : Nat := 2 ^ 64 - 1

/-- The loop of `strconv.ParseUint(s, 10, 64)`: `n` is the accumulator. A byte
that is no decimal digit ends the loop with `0, ErrSyntax`; an overflow ends it
at once with `maxUint64, ErrRange`, before the remaining bytes are looked at. -/
def parseUintLoop : List Char → Nat → Nat × Option NumError
  | [], n => (n, none)
  | c :: cs, n =>
    if c.isDigit then
      let d := c.toNat - '0'.toNat
      if n ≥ maxUint64 / 10 + 1 then
        (maxUint64, some .ErrRange)
      else
        let n := n * 10
        let n1 := (n + d) % 2 ^ 64
        if n1 < n ∨ n1 > maxUint64 then
          (maxUint64, some .ErrRange)
        else
          parseUintLoop cs n1
    else
      (0, some .ErrSyntax)

/-- The function `strconv.ParseUint(s, 10, 64)`. -/
def ParseUint (s : List Char) : Nat × Option NumError :=
  if s = [] then (0, some .ErrSyntax) else parseUintLoop s 0

/-- The function `strconv.ParseInt(s, 10, 0)` on a 64-bit platform. -/
def ParseInt (s : List Char) : Int × Option NumError :=
  match s with
  | [] => (0, some .ErrSyntax)
  | c :: cs =>
    let neg := c = '-'
    let s1 := if c = '+' ∨ c = '-' then cs else c :: cs
    let (un, err) := ParseUint s1
    if err = some .ErrSyntax then
      (0, err)
    else
      let cutoff : Nat := 2 ^ 63
      if ¬ neg ∧ un ≥ cutoff then
        ((cutoff : Int) - 1, some .ErrRange)
      else if neg ∧ un > cutoff then
        (-(cutoff : Int), some .ErrRange)
      else
        (if neg then -(un : Int) else (un : Int), none)

/-- The loop of the fast path of `strconv.Atoi`. -/
def atoiFastLoop : List Char → Int → Option Int
  | [], n => some n
  | c :: cs, n => if c.isDigit then atoiFastLoop cs (n * 10 + (c.toNat - '0'.toNat : Nat)) else none

/-- The function `strconv.Atoi` on a 64-bit platform: the value and the error.
Strings of 1 to 18 bytes take the fast path, all others go through `ParseInt`. -/
def Atoi (s : String) : Int × Option NumError :=
  let sLen := s.utf8ByteSize
  if 0 < sLen ∧ sLen < 19 then
    match s.data with
    | [] => (0, some .ErrSyntax)
    | c :: cs =>
      let s1 := if c = '-' ∨ c = '+' then cs else c :: cs
      if s1.length < 1 then
        (0, some .ErrSyntax)
      else
        match atoiFastLoop s1 0 with
        | none => (0, some .ErrSyntax)
        | some n => (if c = '-' then -n else n, none)
  else
    ParseInt s.data

/-- A valid decimal integer, as a text: an optional sign followed by one or more
decimal digits. This is the wording of the claim on invalid ids, not code of
main.go. -/
def isDecimalInteger (s : String) : Bool :=
  match s.data with
  | [] => false
  | c :: cs =>
    let digits := if c = '+' ∨ c = '-' then cs else c :: cs
    !digits.isEmpty && digits.all Char.isDigit

/-! ## bcrypt -/

/-- The two functions of `golang.org/x/crypto/bcrypt` that main.go calls.
`GenerateFromPassword` draws a random salt (its first argument here) and returns
the hash, or none when it returns an error; `CompareHashAndPassword hash pw`
is true when it returns a nil error. -/
structure Bcrypt where
  GenerateFromPassword : String → String → Option String
  CompareHashAndPassword : String → String → Bool

/-- What main.go relies on: a hash that was generated from a password verifies
against that password, and is not the password itself. -/
def Bcrypt.Sound (B : Bcrypt) : Prop :=
  ∀ salt password hash, B.GenerateFromPassword salt password = some hash →
    B.CompareHashAndPassword hash password = true ∧ hash ≠ password

/-- A stand-in for bcrypt: the hash is the password behind a fixed marker, and a
password of more than 72 bytes is refused, as `bcrypt.GenerateFromPassword`
refuses it (`ErrPasswordTooLong`). -/
def Bcrypt.marker : Bcrypt where
  GenerateFromPassword := fun _ password =>
    if password.utf8ByteSize > 72 then none else some ("$2a$" ++ password)
  CompareHashAndPassword := fun hash password => hash = "$2a$" ++ password

/-! ## Requests and responses -/

/-- The part of `*http.Request` the handlers read: the method, `r.FormValue`,
`mux.Vars(r)`, and the `user_id` value of the session that
`store.Get(r, "session")` decodes from the signed cookie (none when the cookie
is absent or invalid, or the value was never set). -/
structure Request where
  Method : String
  FormValue : String → String
  Vars : String → String
  session : Option Int

def MethodPost : String := "POST"
def StatusFound : Nat := 302
def StatusSeeOther : Nat := 303

/-- The reasons for which a handler calls `log.Fatal`. -/
inductive FatalError where
  | hash
  | db (e : DBError)
deriving DecidableEq, Repr

/-- What a handler does with the `http.ResponseWriter`: `http.Redirect`,
`tmpl.ExecuteTemplate` with its data, or nothing because `log.Fatal` ended the
process. -/
inductive Response where
  | Redirect (url : String) (code : Nat)
  | ExecuteTemplate (name : String) (data : Option (List Task))
  | Fatal (err : FatalError)
deriving DecidableEq, Repr

/-- The result of a handler: the response, the `user_id` of the session the
client holds afterwards, and the database afterwards. -/
structure Result where
  response : Response
  session : Option Int
  db : DB
deriving DecidableEq, Repr

/-! ## The handlers -/

/-- The effect of `rows.Scan(&task.ID, &task.Name, &task.Done)` on a fresh `Task`:
`UserID` keeps its zero value. -/
def scanTask (row : TaskRow) : Task :=
  { ID := row.id, Name := row.name, Done := row.done, UserID := 0 }

/-- Home page (Login page or Task List if authenticated). -/
def homeHandler (db : DB) (r : Request) : Result :=
  match r.session with
  | none => ⟨.Redirect "/index" StatusFound, r.session, db⟩
  | some userID =>
    match db.queryTasks userID with
    | .error e => ⟨.Fatal (.db e), r.session, db⟩
    | .ok rows =>
      let tasks := rows.map scanTask
      ⟨.ExecuteTemplate "tasks.html" (some tasks), r.session, db⟩

/-- Signup Handler. -/
def signupHandler (B : Bcrypt) (salt : String) (db : DB) (r : Request) : Result :=
  if r.Method = MethodPost then
    let username := r.FormValue "username"
    let password := r.FormValue "password"
    match B.GenerateFromPassword salt password with
    | none => ⟨.Fatal .hash, r.session, db⟩
    | some hashedPassword =>
      match db.insertUser username hashedPassword with
      | .error e => ⟨.Fatal (.db e), r.session, db⟩
      | .ok db1 => ⟨.Redirect "/login" StatusSeeOther, r.session, db1⟩
  else
    ⟨.ExecuteTemplate "signup.html" none, r.session, db⟩

/-- Login Handler. -/
def loginHandler (B : Bcrypt) (db : DB) (r : Request) : Result :=
  if r.Method = MethodPost then
    let username := r.FormValue "username"
    let password := r.FormValue "password"
    match db.selectUser username with
    | none => ⟨.Redirect "/login" StatusSeeOther, r.session, db⟩
    | some row =>
      let user : User := { ID := row.id, Username := "", Password := row.password }
      if B.CompareHashAndPassword user.Password password then
        ⟨.Redirect "/" StatusFound, some user.ID, db⟩
      else
        ⟨.Redirect "/login" StatusSeeOther, r.session, db⟩
  else
    ⟨.ExecuteTemplate "login.html" none, r.session, db⟩

/-- Add task handler. -/
def addTaskHandler (db : DB) (r : Request) : Result :=
  match r.session with
  | none => ⟨.Redirect "/login" StatusFound, r.session, db⟩
  | some userID =>
    if r.Method = MethodPost then
      let task := r.FormValue "task"
      match db.insertTask task userID with
      | .error e => ⟨.Fatal (.db e), r.session, db⟩
      | .ok db1 => ⟨.Redirect "/" StatusFound, r.session, db1⟩
    else
      ⟨.Redirect "/" StatusFound, r.session, db⟩

/-- Delete task handler. -/
def deleteTaskHandler (db : DB) (r : Request) : Result :=
  let taskID := (Atoi (r.Vars "id")).1
  match db.execDelete taskID with
  | .error e => ⟨.Fatal (.db e), r.session, db⟩
  | .ok db1 => ⟨.Redirect "/" StatusFound, r.session, db1⟩

/-- Mark task as done. -/
def doneTaskHandler (db : DB) (r : Request) : Result :=
  let taskID := (Atoi (r.Vars "id")).1
  match db.execUpdateDone taskID with
  | .error e => ⟨.Fatal (.db e), r.session, db⟩
  | .ok db1 => ⟨.Redirect "/" StatusFound, r.session, db1⟩

/-! ## Test data -/

/-- A form with a username and a password. -/
def credentials (username password : String) : String → String :=
  fun key => if key = "username" then username else if key = "password" then password else ""

/-- A database with two users and three tasks. -/
def DB.sample : DB :=
  { users := [⟨1, "alice", "$2a$wonderland"⟩, ⟨2, "bob", "$2a$builder"⟩]
    tasks := [⟨1, "milk", false, 1⟩, ⟨2, "bread", true, 2⟩, ⟨3, "eggs", true, 1⟩]
    users_id_seq := 3
    tasks_id_seq := 4 }

/-- A database in which a task has the id 0. -/
def DB.withZero : DB :=
  { users := [⟨1, "alice", "$2a$wonderland"⟩]
    tasks := [⟨0, "zero", false, 1⟩, ⟨1, "milk", false, 1⟩]
    users_id_seq := 2
    tasks_id_seq := 2 }

/-- A password of 73 bytes. -/
def longPassword : String := String.mk (List.replicate 73 'a')

/-- The decimal digit `d` as a byte. -/
def digitChar (d : Nat) : Char := Char.ofNat (48 + d)

/-! ## Lemmas on the store -/

theorem DB.empty_WF : DB.empty.WF := by decide

theorem DB.sample_WF : DB.sample.WF := by decide

theorem DB.selectUser_of_mem {db : DB} (hwf : db.WF) {row : UserRow} (hrow : row ∈ db.users) :
    db.selectUser row.username = some row := by
  obtain ⟨-, hnd, -⟩ := hwf
  unfold DB.selectUser
  generalize db.users = us at hnd hrow
  induction us with
  | nil => simp at hrow
  | cons u us ih =>
    rw [List.map_cons, List.nodup_cons] at hnd
    rcases List.mem_cons.mp hrow with h | h
    · subst h; simp
    · have hne : u.username ≠ row.username := by
        intro he
        exact hnd.1 (he ▸ List.mem_map_of_mem _ h)
      rw [List.find?_cons_of_neg _ (by simpa using hne)]
      exact ih hnd.2 h

theorem DB.selectUser_of_not_mem {db : DB} {username : String}
    (h : username ∉ db.users.map (·.username)) : db.selectUser username = none := by
  unfold DB.selectUser
  rw [List.find?_eq_none]
  intro u hu
  have : u.username ≠ username := fun he => h (he ▸ List.mem_map_of_mem _ hu)
  simpa using this

theorem DB.selectTasks_ids_nodup {db : DB} (hwf : db.WF) (userID : Int) :
    ((db.selectTasks userID).map (·.id)).Nodup := by
  obtain ⟨-, -, hnd, -⟩ := hwf
  exact (List.filter_sublist _).map _ |>.nodup hnd

theorem DB.owner_of_id {db : DB} (hwf : db.WF) {a b : TaskRow} (ha : a ∈ db.tasks)
    (hb : b ∈ db.tasks) (hid : a.id = b.id) : a = b := by
  obtain ⟨-, -, hnd, -⟩ := hwf
  exact List.inj_on_of_nodup_map hnd ha hb hid

theorem Bcrypt.marker_sound : Bcrypt.marker.Sound := by
  intro salt password hash h
  simp only [Bcrypt.marker] at h
  split at h
  · exact absurd h (by simp)
  · obtain rfl := Option.some.inj h
    refine ⟨by simp [Bcrypt.marker], ?_⟩
    intro he
    have := congrArg String.length he
    simp only [String.length_append] at this
    have h4 : "$2a$".length = 4 := by decide
    omega

/-! ## The constraints of the schema are kept by every statement -/

theorem DB.insertUser_WF {db db1 : DB} (hwf : db.WF) {username password : String}
    (h : db.insertUser username password = .ok db1) : db1.WF := by
  obtain ⟨h1, h2, h3, h4, h5, h6⟩ := hwf
  simp only [DB.insertUser] at h
  split at h
  · exact absurd h (by simp)
  · rename_i hfresh
    obtain rfl := Except.ok.inj h
    refine ⟨?_, ?_, h3, ?_, h5, ?_⟩
    · simp only [List.map_append, List.map_cons, List.map_nil]
      refine List.Nodup.append h1 (List.nodup_singleton _) ?_
      intro a ha hb
      obtain ⟨u, hu, rfl⟩ := List.mem_map.mp ha
      have := h4 u hu
      simp only [List.mem_singleton] at hb
      omega
    · simp only [List.map_append, List.map_cons, List.map_nil]
      refine List.Nodup.append h2 (List.nodup_singleton _) ?_
      intro a ha hb
      simp only [List.mem_singleton] at hb
      exact hfresh (hb ▸ ha)
    · intro u hu
      simp only [List.mem_append, List.mem_singleton] at hu
      rcases hu with hu | rfl
      · have := h4 u hu
        show u.id < db.users_id_seq + 1
        omega
      · show db.users_id_seq < db.users_id_seq + 1
        omega
    · intro t ht
      simp only [List.map_append, List.mem_append]
      exact Or.inl (h6 t ht)

theorem DB.insertTask_WF {db db1 : DB} (hwf : db.WF) {name : String} {userID : Int}
    (h : db.insertTask name userID = .ok db1) : db1.WF := by
  obtain ⟨h1, h2, h3, h4, h5, h6⟩ := hwf
  simp only [DB.insertTask] at h
  split at h
  · rename_i hU
    obtain rfl := Except.ok.inj h
    refine ⟨h1, h2, ?_, h4, ?_, ?_⟩
    · simp only [List.map_append, List.map_cons, List.map_nil]
      refine List.Nodup.append h3 (List.nodup_singleton _) ?_
      intro a ha hb
      obtain ⟨t, ht, rfl⟩ := List.mem_map.mp ha
      have := h5 t ht
      simp only [List.mem_singleton] at hb
      omega
    · intro t ht
      simp only [List.mem_append, List.mem_singleton] at ht
      rcases ht with ht | rfl
      · have := h5 t ht
        show t.id < db.tasks_id_seq + 1
        omega
      · show db.tasks_id_seq < db.tasks_id_seq + 1
        omega
    · intro t ht
      simp only [List.mem_append, List.mem_singleton] at ht
      rcases ht with ht | rfl
      · exact h6 t ht
      · exact hU
  · exact absurd h (by simp)

theorem DB.deleteTask_WF {db : DB} (hwf : db.WF) (taskID : Int) : (db.deleteTask taskID).WF := by
  obtain ⟨h1, h2, h3, h4, h5, h6⟩ := hwf
  refine ⟨h1, h2, ?_, h4, ?_, ?_⟩
  · exact ((List.filter_sublist _).map _).nodup h3
  · intro t ht
    exact h5 t (List.mem_of_mem_filter ht)
  · intro t ht
    exact h6 t (List.mem_of_mem_filter ht)

theorem DB.updateDone_WF {db : DB} (hwf : db.WF) (taskID : Int) : (db.updateDone taskID).WF := by
  obtain ⟨h1, h2, h3, h4, h5, h6⟩ := hwf
  have hid : (db.updateDone taskID).tasks.map (·.id) = db.tasks.map (·.id) := by
    simp only [DB.updateDone, List.map_map]
    apply List.map_congr_left
    intro t _
    simp only [Function.comp]
    split <;> rfl
  refine ⟨h1, h2, ?_, h4, ?_, ?_⟩
  · rw [hid]; exact h3
  · intro t ht
    simp only [DB.updateDone, List.mem_map] at ht
    obtain ⟨t0, ht0, rfl⟩ := ht
    have := h5 t0 ht0
    split <;> simpa using this
  · intro t ht
    simp only [DB.updateDone, List.mem_map] at ht
    obtain ⟨t0, ht0, rfl⟩ := ht
    have := h6 t0 ht0
    split <;> simpa using this

/-- Every handler leaves a database that satisfies the constraints of the schema
in that state. -/
theorem handlers_keep_WF (B : Bcrypt) (salt : String) {db : DB} (hwf : db.WF) (r : Request) :
    (homeHandler db r).db.WF ∧ (signupHandler B salt db r).db.WF ∧
    (loginHandler B db r).db.WF ∧ (addTaskHandler db r).db.WF ∧
    (deleteTaskHandler db r).db.WF ∧ (doneTaskHandler db r).db.WF := by
  refine ⟨?_, ?_, ?_, ?_, DB.deleteTask_WF hwf _, DB.updateDone_WF hwf _⟩
  · unfold homeHandler
    split
    · exact hwf
    · split <;> exact hwf
  · unfold signupHandler
    split
    · simp only
      split
      · exact hwf
      · split
        · exact hwf
        · rename_i hins
          exact DB.insertUser_WF hwf hins
    · exact hwf
  · unfold loginHandler
    split
    · simp only
      split
      · exact hwf
      · split <;> exact hwf
    · exact hwf
  · unfold addTaskHandler
    split
    · exact hwf
    · split
      · simp only
        split
        · exact hwf
        · rename_i hins
          exact DB.insertTask_WF hwf hins
      · exact hwf

/-- A session is only ever established for the id of a stored user, and no
handler removes a user: the ids of the users only grow. -/
theorem handlers_keep_users (B : Bcrypt) (salt : String) (db : DB) (r : Request) (U : Int)
    (hU : U ∈ db.users.map (·.id)) :
    U ∈ (homeHandler db r).db.users.map (·.id) ∧
    U ∈ (signupHandler B salt db r).db.users.map (·.id) ∧
    U ∈ (loginHandler B db r).db.users.map (·.id) ∧
    U ∈ (addTaskHandler db r).db.users.map (·.id) ∧
    U ∈ (deleteTaskHandler db r).db.users.map (·.id) ∧
    U ∈ (doneTaskHandler db r).db.users.map (·.id) := by
  refine ⟨?_, ?_, ?_, ?_, hU, hU⟩
  · unfold homeHandler
    split
    · exact hU
    · split <;> exact hU
  · unfold signupHandler
    split
    · simp only
      split
      · exact hU
      · split
        · exact hU
        · rename_i db1 hins
          simp only [DB.insertUser] at hins
          split at hins
          · exact absurd hins (by simp)
          · obtain rfl := Except.ok.inj hins
            simp only [List.map_append, List.mem_append]
            exact Or.inl hU
    · exact hU
  · unfold loginHandler
    split
    · simp only
      split
      · exact hU
      · split <;> exact hU
    · exact hU
  · unfold addTaskHandler
    split
    · exact hU
    · split
      · simp only
        split
        · exact hU
        · rename_i db1 hins
          simp only [DB.insertTask] at hins
          split at hins
          · obtain rfl := Except.ok.inj hins
            exact hU
          · exact absurd hins (by simp)
      · exact hU

theorem loginHandler_session_is_user (B : Bcrypt) (db : DB) (r : Request) (U : Int)
    (h : (loginHandler B db r).session = some U) (hnew : r.session ≠ some U) :
    U ∈ db.users.map (·.id) := by
  unfold loginHandler at h
  split at h
  · simp only at h
    split at h
    · exact absurd h hnew
    · rename_i row hsel
      split at h
      · simp only [Option.some.injEq] at h
        subst h
        exact List.mem_map_of_mem _ (List.mem_of_find?_eq_some hsel)
      · exact absurd h hnew
  · exact absurd h hnew

/-! ## Lemmas on Atoi -/

theorem ParseInt_syntax (s : List Char) (h : (ParseInt s).2 = some .ErrSyntax) :
    (ParseInt s).1 = 0 := by
  cases s with
  | nil => rfl
  | cons c cs =>
    simp only [ParseInt] at h ⊢
    generalize ParseUint (if c = '+' ∨ c = '-' then cs else c :: cs) = p at h ⊢
    obtain ⟨un, err⟩ := p
    simp only at h ⊢
    by_cases h1 : err = some .ErrSyntax
    · rw [if_pos h1]
    · rw [if_neg h1] at h
      exfalso
      split_ifs at h <;> simp at h

theorem Atoi_syntax (s : String) (h : (Atoi s).2 = some .ErrSyntax) : (Atoi s).1 = 0 := by
  simp only [Atoi] at h ⊢
  by_cases hlen : 0 < s.utf8ByteSize ∧ s.utf8ByteSize < 19
  · rw [if_pos hlen] at h ⊢
    generalize s.data = l at h ⊢
    cases l with
    | nil => rfl
    | cons c cs =>
      simp only at h ⊢
      generalize (if c = '-' ∨ c = '+' then cs else c :: cs) = s1 at h ⊢
      by_cases hl : s1.length < 1
      · rw [if_pos hl]
      · rw [if_neg hl] at h ⊢
        cases hf : atoiFastLoop s1 0 with
        | none => rfl
        | some n => rw [hf] at h; simp at h
  · rw [if_neg hlen] at h ⊢
    exact ParseInt_syntax _ h

theorem atoiFastLoop_none (l : List Char) (n : Int) (h : l.all Char.isDigit = false) :
    atoiFastLoop l n = none := by
  induction l generalizing n with
  | nil => simp at h
  | cons c cs ih =>
    unfold atoiFastLoop
    by_cases hc : c.isDigit = true
    · rw [if_pos hc]
      apply ih
      simpa [List.all_cons, hc] using h
    · rw [if_neg hc]

theorem data_nil_of_utf8ByteSize_zero (s : String) (h : ¬ 0 < s.utf8ByteSize) : s.data = [] := by
  obtain ⟨l⟩ := s
  cases l with
  | nil => rfl
  | cons c cs =>
    exfalso
    apply h
    show 0 < String.utf8ByteSize.go cs + c.utf8Size
    have := c.utf8Size_pos
    omega

/-- A text of fewer than 19 bytes that is no decimal integer is a syntax error for
Atoi: the overflow that hides a later invalid byte needs 20 digits. -/
theorem Atoi_short_invalid (s : String) (hinv : isDecimalInteger s = false)
    (hshort : s.utf8ByteSize < 19) : Atoi s = (0, some .ErrSyntax) := by
  simp only [Atoi]
  by_cases hpos : 0 < s.utf8ByteSize
  · rw [if_pos ⟨hpos, hshort⟩]
    simp only [isDecimalInteger] at hinv
    generalize s.data = l at hinv ⊢
    cases l with
    | nil => rfl
    | cons c cs =>
      simp only at hinv ⊢
      have hsign : (c = '-' ∨ c = '+') ↔ (c = '+' ∨ c = '-') := Or.comm
      simp only [hsign]
      generalize (if c = '+' ∨ c = '-' then cs else c :: cs) = s1 at hinv ⊢
      by_cases hl : s1.length < 1
      · rw [if_pos hl]
      · rw [if_neg hl]
        have hne : s1.isEmpty = false := by
          cases s1 with
          | nil => simp at hl
          | cons _ _ => rfl
        rw [hne] at hinv
        simp only [Bool.not_false, Bool.true_and] at hinv
        rw [atoiFastLoop_none s1 0 hinv]
  · have hdata := data_nil_of_utf8ByteSize_zero s hpos
    rw [if_neg (fun h => hpos h.1), hdata]
    rfl

/-! ## Every 64-bit id has a path segment -/

theorem digitChar_isDigit (d : Nat) (h : d < 10) : (digitChar d).isDigit = true := by
  interval_cases d <;> decide

theorem digitChar_toNat (d : Nat) (h : d < 10) : (digitChar d).toNat - '0'.toNat = d := by
  interval_cases d <;> decide

theorem digitChar_ne_sign (d : Nat) (h : d < 10) : ¬ (digitChar d = '+' ∨ digitChar d = '-') ∧
    ¬ (digitChar d = '-' ∨ digitChar d = '+') ∧ digitChar d ≠ '-' := by
  interval_cases d <;> decide

theorem foldl_digits_ge (l : List Nat) (acc : Nat) :
    acc ≤ l.foldl (fun a d => a * 10 + d) acc := by
  induction l generalizing acc with
  | nil => exact Nat.le_refl _
  | cons d ds ih =>
    have := ih (acc * 10 + d)
    simp only [List.foldl_cons]
    omega

theorem parseUintLoop_digits (l : List Nat) (hl : ∀ d ∈ l, d < 10) (acc : Nat)
    (hmax : l.foldl (fun a d => a * 10 + d) acc ≤ maxUint64) :
    parseUintLoop (l.map digitChar) acc = (l.foldl (fun a d => a * 10 + d) acc, none) := by
  induction l generalizing acc with
  | nil => rfl
  | cons d ds ih =>
    have hd : d < 10 := hl d (List.mem_cons_self _ _)
    have hge := foldl_digits_ge ds (acc * 10 + d)
    simp only [List.foldl_cons] at hmax ⊢
    have hbound : acc * 10 + d ≤ maxUint64 := le_trans hge hmax
    simp only [List.map_cons, parseUintLoop, digitChar_isDigit d hd, digitChar_toNat d hd, if_true]
    simp only [maxUint64] at hbound ⊢
    norm_num at hbound ⊢
    have hmod : (acc * 10 + d) % 18446744073709551616 = acc * 10 + d :=
      Nat.mod_eq_of_lt (by omega)
    rw [hmod]
    rw [if_neg (by omega), if_neg (by omega)]
    exact ih (fun x hx => hl x (List.mem_cons_of_mem _ hx)) _ (by simpa [maxUint64] using hmax)

theorem atoiFastLoop_digits (l : List Nat) (hl : ∀ d ∈ l, d < 10) (acc : Nat) :
    atoiFastLoop (l.map digitChar) (acc : Int) =
      some ((l.foldl (fun a d => a * 10 + d) acc : Nat) : Int) := by
  induction l generalizing acc with
  | nil => rfl
  | cons d ds ih =>
    have hd : d < 10 := hl d (List.mem_cons_self _ _)
    simp only [List.map_cons, atoiFastLoop, digitChar_isDigit d hd, digitChar_toNat d hd, if_true,
      List.foldl_cons]
    have := ih (fun x hx => hl x (List.mem_cons_of_mem _ hx)) (acc * 10 + d)
    rw [← this]
    congr 1

theorem exists_digits (n : Nat) :
    ∃ l : List Nat, l ≠ [] ∧ (∀ d ∈ l, d < 10) ∧ l.foldl (fun a d => a * 10 + d) 0 = n := by
  induction n using Nat.strong_induction_on with
  | _ n ih =>
    by_cases hn : n < 10
    · exact ⟨[n], by simp, by simpa using hn, by simp⟩
    · obtain ⟨l, _, hl, hv⟩ := ih (n / 10) (by omega)
      refine ⟨l ++ [n % 10], by simp, ?_, ?_⟩
      · intro d hd
        simp only [List.mem_append, List.mem_singleton] at hd
        rcases hd with hd | rfl
        · exact hl d hd
        · omega
      · simp only [List.foldl_append, List.foldl_cons, List.foldl_nil, hv]
        omega


theorem ParseInt_digits (l : List Nat) (hne : l ≠ []) (hl : ∀ d ∈ l, d < 10) (n : Nat)
    (hv : l.foldl (fun a d => a * 10 + d) 0 = n) (hn : n < 2 ^ 63) :
    ParseInt (l.map digitChar) = ((n : Int), none) := by
  cases l with
  | nil => exact absurd rfl hne
  | cons d ds =>
    have hd : d < 10 := hl d (List.mem_cons_self _ _)
    have hu : ParseUint (digitChar d :: ds.map digitChar) = (n, none) := by
      have := parseUintLoop_digits (d :: ds) hl 0 (by rw [hv]; simp only [maxUint64]; omega)
      rw [hv] at this
      simpa [ParseUint] using this
    obtain ⟨hs, -, hm⟩ := digitChar_ne_sign d hd
    simp only [List.map_cons, ParseInt, if_neg hs, hu]
    simp [hm]
    omega

theorem ParseInt_neg_digits (l : List Nat) (hne : l ≠ []) (hl : ∀ d ∈ l, d < 10) (n : Nat)
    (hv : l.foldl (fun a d => a * 10 + d) 0 = n) (hn : n ≤ 2 ^ 63) :
    ParseInt ('-' :: l.map digitChar) = (-(n : Int), none) := by
  have hu : ParseUint (l.map digitChar) = (n, none) := by
    have := parseUintLoop_digits l hl 0 (by rw [hv]; simp only [maxUint64]; omega)
    rw [hv] at this
    simpa [ParseUint, hne] using this
  simp only [ParseInt]
  simp only [or_true, if_true, hu]
  simp
  omega

theorem Atoi_digits (l : List Nat) (hne : l ≠ []) (hl : ∀ d ∈ l, d < 10) (n : Nat)
    (hv : l.foldl (fun a d => a * 10 + d) 0 = n) (hn : n < 2 ^ 63) :
    Atoi (String.mk (l.map digitChar)) = ((n : Int), none) := by
  simp only [Atoi]
  split
  · cases l with
    | nil => exact absurd rfl hne
    | cons d ds =>
      have hd : d < 10 := hl d (List.mem_cons_self _ _)
      obtain ⟨-, hs, hm⟩ := digitChar_ne_sign d hd
      have hf := atoiFastLoop_digits (d :: ds) hl 0
      rw [hv] at hf
      simp only [List.map_cons, Nat.cast_zero] at hf
      simp only [List.map_cons, if_neg hs, hf]
      simp [hm]
  · exact ParseInt_digits l hne hl n hv hn

theorem Atoi_neg_digits (l : List Nat) (hne : l ≠ []) (hl : ∀ d ∈ l, d < 10) (n : Nat)
    (hv : l.foldl (fun a d => a * 10 + d) 0 = n) (hn : n ≤ 2 ^ 63) :
    Atoi (String.mk ('-' :: l.map digitChar)) = (-(n : Int), none) := by
  simp only [Atoi]
  split
  · have hf := atoiFastLoop_digits l hl 0
    rw [hv] at hf
    simp only [Nat.cast_zero] at hf
    have hlen : ¬ (l.map digitChar).length < 1 := by
      cases l with
      | nil => exact absurd rfl hne
      | cons _ _ => simp
    simp only [true_or, if_true, if_neg hlen, hf]
  · exact ParseInt_neg_digits l hne hl n hv hn

/-- Every 64-bit integer is the value Atoi gives, without an error, for some
path segment: the handlers can be asked for every task id of that range. -/
theorem Atoi_reaches (k : Int) (hlo : -(2 : Int) ^ 63 ≤ k) (hhi : k < (2 : Int) ^ 63) :
    ∃ s : String, Atoi s = (k, none) := by
  by_cases hk : 0 ≤ k
  · obtain ⟨l, hne, hl, hv⟩ := exists_digits k.toNat
    refine ⟨String.mk (l.map digitChar), ?_⟩
    rw [Atoi_digits l hne hl k.toNat hv (by omega)]
    simp [Int.toNat_of_nonneg hk]
  · obtain ⟨l, hne, hl, hv⟩ := exists_digits (-k).toNat
    refine ⟨String.mk ('-' :: l.map digitChar), ?_⟩
    rw [Atoi_neg_digits l hne hl (-k).toNat hv (by omega)]
    have : ((-k).toNat : Int) = -k := Int.toNat_of_nonneg (by omega)
    simp [this]

/-! ## Listing tasks -/

/-- Claim C1. When the session of a request resolves to the user id `U`, homeHandler
renders `tasks.html` with the scanned rows of exactly the stored tasks whose
`user_id` is `U`, one entry per row with the stored id, name and done flag: every
row of `U` is listed, every listed task comes from a row of `U`, no row of another
owner is among the selected rows, and, ids being unique, the listed ids are
distinct and no listed id belongs to a row of another owner. -/
theorem homeHandler_lists_exactly_own_tasks (db : DB) (r : Request) (U : Int)
    (hs : r.session = some U) :
    ∃ tasks : List Task,
      homeHandler db r = ⟨.ExecuteTemplate "tasks.html" (some tasks), some U, db⟩ ∧
      tasks = (db.tasks.filter (fun row => row.user_id = U)).map
        (fun row => { ID := row.id, Name := row.name, Done := row.done, UserID := 0 }) ∧
      (∀ row ∈ db.tasks, row.user_id = U → scanTask row ∈ tasks) ∧
      (∀ task ∈ tasks, ∃ row ∈ db.tasks, row.user_id = U ∧ task = scanTask row) ∧
      (∀ row ∈ db.tasks, row.user_id ≠ U → row ∉ db.selectTasks U) ∧
      (db.WF → (tasks.map (·.ID)).Nodup ∧
        ∀ task ∈ tasks, ∀ row ∈ db.tasks, row.id = task.ID → row.user_id = U) := by
  refine ⟨(db.selectTasks U).map scanTask, ?_, rfl, ?_, ?_, ?_, ?_⟩
  · simp [homeHandler, DB.queryTasks, hs]
  · intro row hrow hu
    exact List.mem_map_of_mem _ (by simp [DB.selectTasks, hrow, hu])
  · intro task htask
    obtain ⟨row, hrow, rfl⟩ := List.mem_map.mp htask
    simp only [DB.selectTasks, List.mem_filter, decide_eq_true_eq] at hrow
    exact ⟨row, hrow.1, hrow.2, rfl⟩
  · intro row _ hne hmem
    simp only [DB.selectTasks, List.mem_filter, decide_eq_true_eq] at hmem
    exact hne hmem.2
  · intro hwf
    constructor
    · have h := DB.selectTasks_ids_nodup hwf U
      simpa [List.map_map, Function.comp_def, scanTask] using h
    · intro task htask row hrow hid
      obtain ⟨row0, hrow0, rfl⟩ := List.mem_map.mp htask
      simp only [DB.selectTasks, List.mem_filter, decide_eq_true_eq] at hrow0
      have : row = row0 := DB.owner_of_id hwf hrow hrow0.1 hid
      rw [this]; exact hrow0.2

/-- Claim C1 at the sample database, for the session of user 1. -/
theorem homeHandler_lists_exactly_own_tasks_witness :
    ∃ tasks : List Task,
      homeHandler DB.sample ⟨"GET", credentials "" "", fun _ => "", some 1⟩ =
        ⟨.ExecuteTemplate "tasks.html" (some tasks), some 1, DB.sample⟩ ∧
      tasks = [⟨1, "milk", false, 0⟩, ⟨3, "eggs", true, 0⟩] := by
  obtain ⟨tasks, h1, h2, -⟩ :=
    homeHandler_lists_exactly_own_tasks DB.sample ⟨"GET", credentials "" "", fun _ => "", some 1⟩ 1 rfl
  exact ⟨tasks, h1, h2.trans (by decide)⟩

/-! ## Login -/

/-- Claim C2. For a database that holds the user row `row`, a POST to loginHandler
with the username of that row and a password that verifies against the stored
hash redirects to `/` with status 302, leaves the database as it is, and leaves
the client with a session whose `user_id` is the id of that row: the next request
of that client to homeHandler is answered with the task list of that id. -/
theorem loginHandler_establishes_session (B : Bcrypt) (db : DB) (r : Request) (row : UserRow)
    (hwf : db.WF) (hrow : row ∈ db.users) (hm : r.Method = MethodPost)
    (hu : r.FormValue "username" = row.username)
    (hp : B.CompareHashAndPassword row.password (r.FormValue "password") = true) :
    loginHandler B db r = ⟨.Redirect "/" StatusFound, some row.id, db⟩ ∧
    ∀ r2 : Request, r2.session = (loginHandler B db r).session →
      homeHandler db r2 =
        ⟨.ExecuteTemplate "tasks.html" (some ((db.selectTasks row.id).map scanTask)),
          some row.id, db⟩ := by
  have h : loginHandler B db r = ⟨.Redirect "/" StatusFound, some row.id, db⟩ := by
    simp [loginHandler, hm, hu, DB.selectUser_of_mem hwf hrow, hp]
  refine ⟨h, ?_⟩
  intro r2 h2
  rw [h] at h2
  simp [homeHandler, DB.queryTasks, h2]

/-- Claim C2 at the sample database: alice logs in. -/
theorem loginHandler_establishes_session_witness :
    loginHandler Bcrypt.marker DB.sample
      ⟨"POST", credentials "alice" "wonderland", fun _ => "", none⟩ =
      ⟨.Redirect "/" 302, some 1, DB.sample⟩ :=
  (loginHandler_establishes_session Bcrypt.marker DB.sample
    ⟨"POST", credentials "alice" "wonderland", fun _ => "", none⟩
    ⟨1, "alice", "$2a$wonderland"⟩ DB.sample_WF (by decide) rfl rfl (by decide)).1

/-- Claim C3. A POST to loginHandler with a username that no row has and a POST
with the username of a stored row and a password that does not verify against its
hash get the same response, a redirect to `/login` with status 303; neither
changes the session the client holds, and neither changes the database. -/
theorem loginHandler_uniform_failure (B : Bcrypt) (db : DB) (r1 r2 : Request) (row : UserRow)
    (hwf : db.WF)
    (h1m : r1.Method = MethodPost)
    (h1u : r1.FormValue "username" ∉ db.users.map (·.username))
    (h2m : r2.Method = MethodPost)
    (hrow : row ∈ db.users)
    (h2u : r2.FormValue "username" = row.username)
    (h2p : B.CompareHashAndPassword row.password (r2.FormValue "password") = false) :
    loginHandler B db r1 = ⟨.Redirect "/login" StatusSeeOther, r1.session, db⟩ ∧
    loginHandler B db r2 = ⟨.Redirect "/login" StatusSeeOther, r2.session, db⟩ ∧
    (loginHandler B db r1).response = (loginHandler B db r2).response := by
  have e1 : loginHandler B db r1 = ⟨.Redirect "/login" StatusSeeOther, r1.session, db⟩ := by
    simp [loginHandler, h1m, DB.selectUser_of_not_mem h1u]
  have e2 : loginHandler B db r2 = ⟨.Redirect "/login" StatusSeeOther, r2.session, db⟩ := by
    simp [loginHandler, h2m, h2u, DB.selectUser_of_mem hwf hrow, h2p]
  exact ⟨e1, e2, by rw [e1, e2]⟩

/-- Claim C3 at the sample database: the unknown user carol and alice with a wrong
password. -/
theorem loginHandler_uniform_failure_witness :
    loginHandler Bcrypt.marker DB.sample
      ⟨"POST", credentials "carol" "wonderland", fun _ => "", none⟩ =
      ⟨.Redirect "/login" 303, none, DB.sample⟩ ∧
    loginHandler Bcrypt.marker DB.sample
      ⟨"POST", credentials "alice" "looking-glass", fun _ => "", some 2⟩ =
      ⟨.Redirect "/login" 303, some 2, DB.sample⟩ :=
  have h := loginHandler_uniform_failure Bcrypt.marker DB.sample
    ⟨"POST", credentials "carol" "wonderland", fun _ => "", none⟩
    ⟨"POST", credentials "alice" "looking-glass", fun _ => "", some 2⟩
    ⟨1, "alice", "$2a$wonderland"⟩ DB.sample_WF rfl (by decide) rfl (by decide) rfl (by decide)
  ⟨h.1, h.2.1⟩

/-! ## Requests without a session -/

/-- Claim C6. For a request whose session resolves to no user id, whatever its
method and form, homeHandler and addTaskHandler each answer with a redirect (to
`/index` and to `/login`, status 302): no template is rendered, so no task is in
the response, the session stays empty and the database is the one before. -/
theorem unauthenticated_is_redirected (db : DB) (r : Request) (hs : r.session = none) :
    homeHandler db r = ⟨.Redirect "/index" StatusFound, none, db⟩ ∧
    addTaskHandler db r = ⟨.Redirect "/login" StatusFound, none, db⟩ := by
  simp [homeHandler, addTaskHandler, hs]

/-- Claim C6 at the sample database, for a POST that carries a task name. -/
theorem unauthenticated_is_redirected_witness :
    homeHandler DB.sample ⟨"POST", fun _ => "milk", fun _ => "", none⟩ =
      ⟨.Redirect "/index" 302, none, DB.sample⟩ ∧
    addTaskHandler DB.sample ⟨"POST", fun _ => "milk", fun _ => "", none⟩ =
      ⟨.Redirect "/login" 302, none, DB.sample⟩ :=
  unauthenticated_is_redirected DB.sample ⟨"POST", fun _ => "milk", fun _ => "", none⟩ rfl

/-! ## Signup -/

/-- Claim C4, as the code has it. For a database in which a row with the posted
username exists, a POST to signupHandler ends in `log.Fatal` and leaves the
database, the users table included, as it was; the error is the store's
DuplicateUsername whenever `bcrypt.GenerateFromPassword` returned a hash for the
posted password (the password is hashed before the insert is tried). -/
theorem signupHandler_duplicate_username (B : Bcrypt) (salt : String) (db : DB) (r : Request)
    (hm : r.Method = MethodPost)
    (hdup : r.FormValue "username" ∈ db.users.map (·.username)) :
    (∀ hash, B.GenerateFromPassword salt (r.FormValue "password") = some hash →
      signupHandler B salt db r = ⟨.Fatal (.db .DuplicateUsername), r.session, db⟩) ∧
    (∃ err, (signupHandler B salt db r).response = .Fatal err) ∧
    (signupHandler B salt db r).db = db ∧
    (signupHandler B salt db r).db.users = db.users := by
  have hins : ∀ hash, db.insertUser (r.FormValue "username") hash = .error .DuplicateUsername := by
    intro hash
    simp only [DB.insertUser]
    rw [if_pos hdup]
  refine ⟨?_, ?_⟩
  · intro hash hgen
    simp [signupHandler, hm, hgen, hins]
  · cases hgen : B.GenerateFromPassword salt (r.FormValue "password") with
    | none => simp [signupHandler, hm, hgen]
    | some hash => simp [signupHandler, hm, hgen, hins]

/-- Claim C4 at the sample database: a second alice signs up. -/
theorem signupHandler_duplicate_username_witness :
    signupHandler Bcrypt.marker "salt" DB.sample
      ⟨"POST", credentials "alice" "rabbit", fun _ => "", none⟩ =
      ⟨.Fatal (.db .DuplicateUsername), none, DB.sample⟩ :=
  (signupHandler_duplicate_username Bcrypt.marker "salt" DB.sample
    ⟨"POST", credentials "alice" "rabbit", fun _ => "", none⟩ rfl (by decide)).1
    "$2a$rabbit" (by decide)

/-- Claim C4 as stated fails: with a password of 73 bytes, which bcrypt refuses, the
signup of the existing username alice ends in `log.Fatal` with the error of the
hash, not with DuplicateUsername; the insert is never tried. -/
theorem signupHandler_duplicate_username_counterexample :
    "alice" ∈ DB.sample.users.map (·.username) ∧
    signupHandler Bcrypt.marker "salt" DB.sample
      ⟨"POST", credentials "alice" longPassword, fun _ => "", none⟩ =
      ⟨.Fatal .hash, none, DB.sample⟩ ∧
    (signupHandler Bcrypt.marker "salt" DB.sample
      ⟨"POST", credentials "alice" longPassword, fun _ => "", none⟩).response ≠
      .Fatal (.db .DuplicateUsername) := by
  decide

/-- Claim C5, as the code has it. For a database with no row of the posted
username and a posted password for which `bcrypt.GenerateFromPassword` returns a
hash, a POST to signupHandler redirects to `/login` and appends one row to the
users table, every row that was there staying as it was and the tasks table
too; the new row carries the posted username and the returned hash, which
verifies against the posted password and differs from it, and its id is the
one of no earlier row. -/
theorem signupHandler_fresh_username (B : Bcrypt) (hB : B.Sound) (salt : String) (db : DB)
    (r : Request) (hash : String)
    (hm : r.Method = MethodPost)
    (hfresh : r.FormValue "username" ∉ db.users.map (·.username))
    (hgen : B.GenerateFromPassword salt (r.FormValue "password") = some hash) :
    ∃ row : UserRow,
      signupHandler B salt db r =
        ⟨.Redirect "/login" StatusSeeOther, r.session,
          { db with users := db.users ++ [row], users_id_seq := db.users_id_seq + 1 }⟩ ∧
      (signupHandler B salt db r).db.users.length = db.users.length + 1 ∧
      (signupHandler B salt db r).db.tasks = db.tasks ∧
      row.username = r.FormValue "username" ∧
      row.password = hash ∧
      B.CompareHashAndPassword row.password (r.FormValue "password") = true ∧
      row.password ≠ r.FormValue "password" ∧
      (db.WF → row.id ∉ db.users.map (·.id)) := by
  have hins : db.insertUser (r.FormValue "username") hash =
      .ok { db with users := db.users ++ [⟨db.users_id_seq, r.FormValue "username", hash⟩],
                    users_id_seq := db.users_id_seq + 1 } := by
    simp only [DB.insertUser]
    rw [if_neg hfresh]
  have hres : signupHandler B salt db r =
      ⟨.Redirect "/login" StatusSeeOther, r.session,
        { db with users := db.users ++ [⟨db.users_id_seq, r.FormValue "username", hash⟩],
                  users_id_seq := db.users_id_seq + 1 }⟩ := by
    simp [signupHandler, hm, hgen, hins]
  obtain ⟨hv, hne⟩ := hB salt _ hash hgen
  refine ⟨⟨db.users_id_seq, r.FormValue "username", hash⟩, hres, ?_, ?_, rfl, rfl, hv, hne, ?_⟩
  · rw [hres]; simp
  · rw [hres]
  · intro hwf hmem
    obtain ⟨-, -, -, hlt, -⟩ := hwf
    obtain ⟨u, hu, hid⟩ := List.mem_map.mp hmem
    have := hlt u hu
    simp only at hid
    omega

/-- Claim C5 at the sample database: carol signs up. -/
theorem signupHandler_fresh_username_witness :
    ∃ row : UserRow,
      signupHandler Bcrypt.marker "salt" DB.sample
        ⟨"POST", credentials "carol" "secret", fun _ => "", none⟩ =
        ⟨.Redirect "/login" 303, none,
          { DB.sample with users := DB.sample.users ++ [row], users_id_seq := 4 }⟩ ∧
      row.username = "carol" ∧ row.password ≠ "secret" := by
  obtain ⟨row, h1, -, -, h2, -, -, h3, -⟩ :=
    signupHandler_fresh_username Bcrypt.marker Bcrypt.marker_sound "salt" DB.sample
      ⟨"POST", credentials "carol" "secret", fun _ => "", none⟩ "$2a$secret" rfl
      (by decide) (by decide)
  exact ⟨row, h1, h2, h3⟩

/-- Claim C5 as stated fails: carol is a fresh username, but with a password of 73
bytes, which bcrypt refuses, signupHandler ends in `log.Fatal` and the users table
has no new row. -/
theorem signupHandler_fresh_username_counterexample :
    "carol" ∉ DB.sample.users.map (·.username) ∧
    signupHandler Bcrypt.marker "salt" DB.sample
      ⟨"POST", credentials "carol" longPassword, fun _ => "", none⟩ =
      ⟨.Fatal .hash, none, DB.sample⟩ ∧
    (signupHandler Bcrypt.marker "salt" DB.sample
      ⟨"POST", credentials "carol" longPassword, fun _ => "", none⟩).db.users.length =
      DB.sample.users.length := by
  decide

/-! ## Adding, completing and deleting tasks -/

/-- Claim C7. For a session of the user id `U` (the id of a stored user) and any
posted task name, the empty one included, a POST to addTaskHandler redirects to
`/` and homeHandler then lists, for a session of `U`, the tasks it listed before
followed by one more task that has the posted name and is not done; the id of
that task is the one of no task stored before. -/
theorem addTask_then_list (db : DB) (r1 r2 : Request) (U : Int)
    (hU : U ∈ db.users.map (·.id))
    (h1s : r1.session = some U) (h1m : r1.Method = MethodPost)
    (h2s : r2.session = some U) :
    ∃ before : List Task, ∃ new : Task,
      homeHandler db r2 = ⟨.ExecuteTemplate "tasks.html" (some before), some U, db⟩ ∧
      (addTaskHandler db r1).response = .Redirect "/" StatusFound ∧
      homeHandler (addTaskHandler db r1).db r2 =
        ⟨.ExecuteTemplate "tasks.html" (some (before ++ [new])), some U,
          (addTaskHandler db r1).db⟩ ∧
      before = (db.selectTasks U).map scanTask ∧
      new = ⟨db.tasks_id_seq, r1.FormValue "task", false, 0⟩ ∧
      new.Name = r1.FormValue "task" ∧
      new.Done = false ∧
      (db.WF → new.ID ∉ db.tasks.map (·.id)) := by
  have hins : db.insertTask (r1.FormValue "task") U =
      .ok { db with tasks := db.tasks ++ [⟨db.tasks_id_seq, r1.FormValue "task", false, U⟩],
                    tasks_id_seq := db.tasks_id_seq + 1 } := by
    simp only [DB.insertTask]
    rw [if_pos hU]
  have hadd : addTaskHandler db r1 =
      ⟨.Redirect "/" StatusFound, some U,
        { db with tasks := db.tasks ++ [⟨db.tasks_id_seq, r1.FormValue "task", false, U⟩],
                  tasks_id_seq := db.tasks_id_seq + 1 }⟩ := by
    simp [addTaskHandler, h1s, h1m, hins]
  refine ⟨(db.selectTasks U).map scanTask,
    ⟨db.tasks_id_seq, r1.FormValue "task", false, 0⟩, ?_, ?_, ?_, rfl, rfl, rfl, rfl, ?_⟩
  · simp [homeHandler, DB.queryTasks, h2s]
  · rw [hadd]
  · rw [hadd]
    simp [homeHandler, DB.queryTasks, h2s, DB.selectTasks, List.filter_append, scanTask]
  · intro hwf hmem
    obtain ⟨-, -, -, -, hlt, -⟩ := hwf
    obtain ⟨t, ht, hid⟩ := List.mem_map.mp hmem
    have := hlt t ht
    simp only at hid
    omega

/-- Claim C7 at the sample database: alice adds a task with the empty name. -/
theorem addTask_then_list_witness :
    homeHandler
      (addTaskHandler DB.sample ⟨"POST", fun _ => "", fun _ => "", some 1⟩).db
      ⟨"GET", fun _ => "", fun _ => "", some 1⟩ =
    ⟨.ExecuteTemplate "tasks.html"
        (some [⟨1, "milk", false, 0⟩, ⟨3, "eggs", true, 0⟩, ⟨4, "", false, 0⟩]), some 1,
      (addTaskHandler DB.sample ⟨"POST", fun _ => "", fun _ => "", some 1⟩).db⟩ := by
  obtain ⟨before, new, -, -, h1, rfl, rfl, -⟩ :=
    addTask_then_list DB.sample ⟨"POST", fun _ => "", fun _ => "", some 1⟩
      ⟨"GET", fun _ => "", fun _ => "", some 1⟩ 1 (by decide) rfl rfl rfl
  exact h1.trans (by decide)

/-- Claim C8. Whatever the session of the request, doneTaskHandler for the task id
`k` answers with the redirect to `/` (it has no failing path) and leaves the
session alone; in the database afterwards every task with id `k` has
`done = true` and is otherwise the stored one, every other task is the stored
one, the order and the number of the tasks, the users and the sequences are as
before; a second run for `k`, with any session, gives the same redirect and
leaves that database exactly as it is. -/
theorem doneTaskHandler_marks_done (db : DB) (r r2 : Request) (k : Int)
    (hk : (Atoi (r.Vars "id")).1 = k) (hk2 : (Atoi (r2.Vars "id")).1 = k) :
    ∃ db1 : DB,
      doneTaskHandler db r = ⟨.Redirect "/" StatusFound, r.session, db1⟩ ∧
      db1.tasks = db.tasks.map
        (fun t => if t.id = k then ⟨t.id, t.name, true, t.user_id⟩ else t) ∧
      (∀ t ∈ db1.tasks, t.id = k → t.done = true) ∧
      (∀ t ∈ db.tasks, t.id = k → ⟨t.id, t.name, true, t.user_id⟩ ∈ db1.tasks) ∧
      (∀ t : TaskRow, t.id ≠ k → (t ∈ db1.tasks ↔ t ∈ db.tasks)) ∧
      db1.tasks.map (·.id) = db.tasks.map (·.id) ∧
      db1.tasks.map (·.name) = db.tasks.map (·.name) ∧
      db1.tasks.map (·.user_id) = db.tasks.map (·.user_id) ∧
      db1.users = db.users ∧
      db1.users_id_seq = db.users_id_seq ∧ db1.tasks_id_seq = db.tasks_id_seq ∧
      doneTaskHandler db1 r2 = ⟨.Redirect "/" StatusFound, r2.session, db1⟩ := by
  have hmap : (db.updateDone k).tasks = db.tasks.map
      (fun t => if t.id = k then ⟨t.id, t.name, true, t.user_id⟩ else t) := rfl
  refine ⟨db.updateDone k, ?_, hmap, ?_, ?_, ?_, ?_, ?_, ?_, rfl, rfl, rfl, ?_⟩
  · simp [doneTaskHandler, DB.execUpdateDone, hk]
  · intro t ht hid
    rw [hmap] at ht
    obtain ⟨t0, -, rfl⟩ := List.mem_map.mp ht
    split <;> simp_all
  · intro t ht hid
    rw [hmap]
    exact List.mem_map.mpr ⟨t, ht, by simp [hid]⟩
  · intro t hne
    rw [hmap, List.mem_map]
    constructor
    · rintro ⟨t0, ht0, h⟩
      split at h
      · subst h; simp_all
      · subst h; exact ht0
    · intro ht
      exact ⟨t, ht, by simp [hne]⟩
  · rw [hmap, List.map_map]
    apply List.map_congr_left
    intro t _
    simp only [Function.comp]
    split <;> rfl
  · rw [hmap, List.map_map]
    apply List.map_congr_left
    intro t _
    simp only [Function.comp]
    split <;> rfl
  · rw [hmap, List.map_map]
    apply List.map_congr_left
    intro t _
    simp only [Function.comp]
    split <;> rfl
  · have : (db.updateDone k).updateDone k = db.updateDone k := by
      simp only [DB.updateDone, List.map_map]
      congr 1
      apply List.map_congr_left
      intro t _
      simp only [Function.comp]
      split <;> simp_all
    simp [doneTaskHandler, DB.execUpdateDone, hk2, this]

/-- Claim C8 at the sample database: task 1 is marked done without a session, and
once more with the session of user 2. -/
theorem doneTaskHandler_marks_done_witness :
    ∃ db1 : DB,
      doneTaskHandler DB.sample ⟨"GET", fun _ => "", fun _ => "1", none⟩ =
        ⟨.Redirect "/" 302, none, db1⟩ ∧
      db1.tasks = [⟨1, "milk", true, 1⟩, ⟨2, "bread", true, 2⟩, ⟨3, "eggs", true, 1⟩] ∧
      doneTaskHandler db1 ⟨"POST", fun _ => "", fun _ => "1", some 2⟩ =
        ⟨.Redirect "/" 302, some 2, db1⟩ := by
  obtain ⟨db1, h1, h2, -, -, -, -, -, -, -, -, -, h3⟩ :=
    doneTaskHandler_marks_done DB.sample ⟨"GET", fun _ => "", fun _ => "1", none⟩
      ⟨"POST", fun _ => "", fun _ => "1", some 2⟩ 1 (by decide) (by decide)
  exact ⟨db1, h1, h2.trans (by decide), h3⟩

/-- Claim C9. Whatever the session of the request, deleteTaskHandler for the task
id `k` answers with the redirect to `/` (it has no failing path) and leaves the
session alone; the database afterwards has no task with id `k`, has every other
task exactly as stored and in the stored order, and the same users and
sequences; a second run for `k`, with any session, changes nothing, and so does
a run for an id that no stored task has. -/
theorem deleteTaskHandler_removes_task (db : DB) (r r2 : Request) (k : Int)
    (hk : (Atoi (r.Vars "id")).1 = k) (hk2 : (Atoi (r2.Vars "id")).1 = k) :
    ∃ db1 : DB,
      deleteTaskHandler db r = ⟨.Redirect "/" StatusFound, r.session, db1⟩ ∧
      db1.tasks = db.tasks.filter (fun t => t.id ≠ k) ∧
      (∀ t ∈ db1.tasks, t.id ≠ k) ∧
      (∀ t : TaskRow, t.id ≠ k → (t ∈ db1.tasks ↔ t ∈ db.tasks)) ∧
      db1.users = db.users ∧
      db1.users_id_seq = db.users_id_seq ∧ db1.tasks_id_seq = db.tasks_id_seq ∧
      deleteTaskHandler db1 r2 = ⟨.Redirect "/" StatusFound, r2.session, db1⟩ ∧
      (k ∉ db.tasks.map (·.id) → db1 = db) := by
  have hnone : ∀ d : DB, k ∉ d.tasks.map (·.id) → d.deleteTask k = d := by
    intro d hd
    have : d.tasks.filter (fun t => t.id ≠ k) = d.tasks := by
      rw [List.filter_eq_self]
      intro t ht
      have : t.id ≠ k := fun he => hd (he ▸ List.mem_map_of_mem _ ht)
      simpa using this
    simp only [DB.deleteTask, this]
  have hgone : k ∉ (db.deleteTask k).tasks.map (·.id) := by
    intro hmem
    obtain ⟨t, ht, hid⟩ := List.mem_map.mp hmem
    simp [DB.deleteTask, List.mem_filter] at ht
    exact ht.2 hid
  refine ⟨db.deleteTask k, ?_, rfl, ?_, ?_, rfl, rfl, rfl, ?_, hnone db⟩
  · simp [deleteTaskHandler, DB.execDelete, hk]
  · intro t ht
    simp [DB.deleteTask, List.mem_filter] at ht
    exact ht.2
  · intro t hne
    simp [DB.deleteTask, List.mem_filter, hne]
  · simp [deleteTaskHandler, DB.execDelete, hk2, hnone _ hgone]

/-- Claim C9 at the sample database: task 2 is deleted without a session, and
once more with the session of user 1. -/
theorem deleteTaskHandler_removes_task_witness :
    ∃ db1 : DB,
      deleteTaskHandler DB.sample ⟨"GET", fun _ => "", fun _ => "2", none⟩ =
        ⟨.Redirect "/" 302, none, db1⟩ ∧
      db1.tasks = [⟨1, "milk", false, 1⟩, ⟨3, "eggs", true, 1⟩] ∧
      deleteTaskHandler db1 ⟨"POST", fun _ => "", fun _ => "2", some 1⟩ =
        ⟨.Redirect "/" 302, some 1, db1⟩ := by
  obtain ⟨db1, h1, h2, -, -, -, -, -, h3, -⟩ :=
    deleteTaskHandler_removes_task DB.sample ⟨"GET", fun _ => "", fun _ => "2", none⟩
      ⟨"POST", fun _ => "", fun _ => "2", some 1⟩ 2 (by decide) (by decide)
  exact ⟨db1, h1, h2.trans (by decide), h3⟩

/-! ## Ids that are no numbers -/

/-- Claim C10, as the code has it. For a path segment `id` on which `strconv.Atoi`
reports a syntax error, deleteTaskHandler and doneTaskHandler do not reject the
request: each redirects to `/` and does what it does for the id 0 (and what it does
for the path segment `0`), deleting, respectively marking done, the tasks with
id 0 and changing nothing when there is none. -/
theorem invalid_id_is_zero (db : DB) (r : Request)
    (h : (Atoi (r.Vars "id")).2 = some .ErrSyntax) :
    deleteTaskHandler db r = ⟨.Redirect "/" StatusFound, r.session, db.deleteTask 0⟩ ∧
    doneTaskHandler db r = ⟨.Redirect "/" StatusFound, r.session, db.updateDone 0⟩ ∧
    deleteTaskHandler db r = deleteTaskHandler db { r with Vars := fun _ => "0" } ∧
    doneTaskHandler db r = doneTaskHandler db { r with Vars := fun _ => "0" } ∧
    (0 ∉ db.tasks.map (·.id) →
      deleteTaskHandler db r = ⟨.Redirect "/" StatusFound, r.session, db⟩ ∧
      doneTaskHandler db r = ⟨.Redirect "/" StatusFound, r.session, db⟩) := by
  have h0 : (Atoi (r.Vars "id")).1 = 0 := Atoi_syntax _ h
  have hz : (Atoi "0").1 = 0 := by decide
  have hdel : deleteTaskHandler db r = ⟨.Redirect "/" StatusFound, r.session, db.deleteTask 0⟩ := by
    simp [deleteTaskHandler, DB.execDelete, h0]
  have hdone : doneTaskHandler db r = ⟨.Redirect "/" StatusFound, r.session, db.updateDone 0⟩ := by
    simp [doneTaskHandler, DB.execUpdateDone, h0]
  refine ⟨hdel, hdone, ?_, ?_, ?_⟩
  · rw [hdel]; simp [deleteTaskHandler, DB.execDelete, hz]
  · rw [hdone]; simp [doneTaskHandler, DB.execUpdateDone, hz]
  · intro hno
    have hne : ∀ t ∈ db.tasks, t.id ≠ 0 := fun t ht he => hno (he ▸ List.mem_map_of_mem _ ht)
    have e1 : db.deleteTask 0 = db := by
      have : db.tasks.filter (fun t => t.id ≠ 0) = db.tasks := by
        rw [List.filter_eq_self]
        intro t ht
        simpa using hne t ht
      simp only [DB.deleteTask, this]
    have e2 : db.updateDone 0 = db := by
      have : db.tasks.map (fun t => if t.id = 0 then { t with done := true } else t) =
          db.tasks := by
        conv_rhs => rw [← List.map_id db.tasks]
        apply List.map_congr_left
        intro t ht
        simp [hne t ht]
      simp only [DB.updateDone, this]
    rw [hdel, hdone, e1, e2]
    exact ⟨rfl, rfl⟩

/-- Claim C10 at the two ids of the claim, `abc` and the empty one, on a database
with a task 0. -/
theorem invalid_id_is_zero_witness :
    (deleteTaskHandler DB.withZero ⟨"GET", fun _ => "", fun _ => "abc", none⟩).db.tasks =
      [⟨1, "milk", false, 1⟩] ∧
    (doneTaskHandler DB.withZero ⟨"GET", fun _ => "", fun _ => "", none⟩).db.tasks =
      [⟨0, "zero", true, 1⟩, ⟨1, "milk", false, 1⟩] := by
  have h1 := (invalid_id_is_zero DB.withZero ⟨"GET", fun _ => "", fun _ => "abc", none⟩
    (by decide)).1
  have h2 := (invalid_id_is_zero DB.withZero ⟨"GET", fun _ => "", fun _ => "", none⟩
    (by decide)).2.1
  rw [h1, h2]
  decide

/-- Claim C10 as stated fails: the path segment `99999999999999999999x` is no decimal
integer, but Atoi gives up at the twentieth digit with a range error and the
value 2^63 - 1, before it sees the `x`. The handlers then work on the id
9223372036854775807: the task with id 0 is neither deleted nor marked done, as
it is for the path segment `0`. -/
theorem invalid_id_counterexample :
    isDecimalInteger "99999999999999999999x" = false ∧
    Atoi "99999999999999999999x" = (9223372036854775807, some .ErrRange) ∧
    (deleteTaskHandler DB.withZero
      ⟨"GET", fun _ => "", fun _ => "99999999999999999999x", none⟩).db = DB.withZero ∧
    (deleteTaskHandler DB.withZero ⟨"GET", fun _ => "", fun _ => "0", none⟩).db.tasks =
      [⟨1, "milk", false, 1⟩] ∧
    (doneTaskHandler DB.withZero
      ⟨"GET", fun _ => "", fun _ => "99999999999999999999x", none⟩).db = DB.withZero ∧
    (doneTaskHandler DB.withZero ⟨"GET", fun _ => "", fun _ => "0", none⟩).db.tasks =
      [⟨0, "zero", true, 1⟩, ⟨1, "milk", false, 1⟩] := by
  decide

end GoTodo
